import Mathlib

/-!
Verification of the osm_clipper repository (src/osm_clipper.py) against its
natural-language specification.

The development shallowly embeds the two core algorithms:

* `remove_tiny_shapes` (the GeometrySimplifier): geometries are modelled at the
  level the function observes them — a single polygon is represented by its
  planar area, a multipolygon by the ordered list of its constituent part
  areas.  `pygeos.area` applied to a multipolygon returns the sum of the areas
  of its parts, which is `pygeosArea` below.  Geometries that are neither kind
  make the Python function fall off the end and return `None`, modelled as
  `Option.none`.

* `poly_files` (the BoundaryWriter): rings carry their exterior vertex list
  and their centroid (the centroid is produced by the shapely library from the
  vertices; it is carried as data).  The geodesic WGS-84 distance used by the
  CAN/RUS ring exclusion is an external library call (`geopy.distance.geodesic`)
  and is therefore a parameter of the writer.  The text artifact is modelled
  line by line with the `Line` type, abstracting only the decimal rendering of
  coordinates ("modulo floating-point text formatting").  The row loop's local
  variable `polygons` persists across iterations (a row of any other geometry
  type leaves it at its previous value, and reading it while still unbound
  raises), so the iteration is embedded as explicit state passing of that
  binding (`processRow`, `polyFilesRun`).
-/

namespace OsmClipper

/-! ### GeometrySimplifier: `remove_tiny_shapes` -/

/-- A geometry as observed by `remove_tiny_shapes`: `pygeos.geometry.get_type_id`
is 3 for a polygon, 6 for a multipolygon; anything else reaches the end of the
function body.  A polygon is carried as its planar area, a multipolygon as the
ordered list of the planar areas of its parts. -/
inductive SGeom where
  | polygon (area : ℚ)
  | multipolygon (parts : List ℚ)
  | other
  deriving DecidableEq, Repr

/-- A row as consumed by `remove_tiny_shapes`: the code reads
`x['GID_0']` and `x.geometry`. -/
structure SArea where
  GID_0 : String
  geometry : SGeom
  deriving DecidableEq, Repr

/-- Planar area, `pygeos.area`: for a multipolygon this is the sum of the
areas of its parts. -/
def pygeosArea : SGeom → ℚ
  | SGeom.polygon a => a
  | SGeom.multipolygon parts => parts.sum
  | SGeom.other => 0

/-- The mode-dependent floor `area1` of `remove_tiny_shapes`. -/
def area1 (regionalized : Bool) : ℚ :=
  if regionalized then 0.01 else 0.1

/-- The mode-dependent size-class boundary `area2` of `remove_tiny_shapes`. -/
def area2 (regionalized : Bool) : ℚ :=
  if regionalized then 50 else 250

/-- The per-ring drop threshold chosen inside `remove_tiny_shapes`
(lines 55-66 of the source). -/
def selectThreshold (gid0 : String) (regionalized : Bool) (totalArea : ℚ) : ℚ :=
  if gid0 = "CHL" ∨ gid0 = "IDN" then 0.01
  else if gid0 = "RUS" ∨ gid0 = "GRL" ∨ gid0 = "CAN" ∨ gid0 = "USA" then
    if regionalized = true then 0.01 else 0.01
  else if totalArea > area2 regionalized then 0.1
  else 0.001

/-- `remove_tiny_shapes(x, regionalized)`.  A polygon is returned unchanged; a
multipolygon below the floor `area1` is returned unchanged; otherwise the parts
whose area exceeds the selected threshold are kept and re-packed as a
multipolygon.  Any other geometry type falls off the end (`None`). -/
def remove_tiny_shapes (x : SArea) (regionalized : Bool) : Option SGeom :=
  match x.geometry with
  | SGeom.polygon a => some (SGeom.polygon a)
  | SGeom.multipolygon parts =>
      if pygeosArea (SGeom.multipolygon parts) < area1 regionalized then
        some (SGeom.multipolygon parts)
      else
        let threshold :=
          selectThreshold x.GID_0 regionalized (pygeosArea (SGeom.multipolygon parts))
        some (SGeom.multipolygon (parts.filter (fun a => decide (threshold < a))))
  | SGeom.other => none

/-- Helper: the CHL/IDN identity override of the threshold. -/
theorem selectThreshold_chl_idn (gid0 : String) (regionalized : Bool) (A : ℚ)
    (h : gid0 = "CHL" ∨ gid0 = "IDN") :
    selectThreshold gid0 regionalized A = 0.01 := by
  rcases h with h | h <;> subst h <;> simp [selectThreshold]

/-- Helper: the RUS/GRL/CAN/USA identity override of the threshold. -/
theorem selectThreshold_big_four (gid0 : String) (regionalized : Bool) (A : ℚ)
    (h : gid0 = "RUS" ∨ gid0 = "GRL" ∨ gid0 = "CAN" ∨ gid0 = "USA") :
    selectThreshold gid0 regionalized A = 0.01 := by
  rcases h with h | h | h | h <;> subst h <;> simp [selectThreshold]

/-- Helper: the size-class fallback of the threshold. -/
theorem selectThreshold_generic (gid0 : String) (regionalized : Bool) (A : ℚ)
    (h1 : ¬(gid0 = "CHL" ∨ gid0 = "IDN"))
    (h2 : ¬(gid0 = "RUS" ∨ gid0 = "GRL" ∨ gid0 = "CAN" ∨ gid0 = "USA")) :
    selectThreshold gid0 regionalized A =
      if A > area2 regionalized then 0.1 else 0.001 := by
  simp [selectThreshold, h1, h2]

/-- Helper: on a multipolygon at or above the floor, `remove_tiny_shapes`
filters the parts by the selected threshold. -/
theorem remove_tiny_shapes_filter (gid0 : String) (regionalized : Bool)
    (parts : List ℚ)
    (htot : area1 regionalized ≤ pygeosArea (SGeom.multipolygon parts)) :
    remove_tiny_shapes ⟨gid0, SGeom.multipolygon parts⟩ regionalized =
      some (SGeom.multipolygon (parts.filter (fun a =>
        decide (selectThreshold gid0 regionalized
          (pygeosArea (SGeom.multipolygon parts)) < a)))) := by
  unfold remove_tiny_shapes
  simp only
  rw [if_neg (not_lt.mpr htot)]

/-- Claim C1: for a multipolygon whose total area is at or above the
mode-dependent floor `area1` (0.1 by default, 0.01 when regionalized, with
`area2` 250 resp. 50), the per-ring drop threshold selected by
`remove_tiny_shapes` follows the decision table: 0.01 for CHL/IDN; 0.01 for
RUS/GRL/CAN/USA under both modes; otherwise 0.1 when the total area exceeds
`area2` and 0.001 otherwise. -/
theorem threshold_decision_table (gid0 : String) (regionalized : Bool)
    (parts : List ℚ)
    (htot : area1 regionalized ≤ pygeosArea (SGeom.multipolygon parts)) :
    (remove_tiny_shapes ⟨gid0, SGeom.multipolygon parts⟩ regionalized =
      some (SGeom.multipolygon (parts.filter (fun a =>
        decide (selectThreshold gid0 regionalized
          (pygeosArea (SGeom.multipolygon parts)) < a)))))
    ∧ ((gid0 = "CHL" ∨ gid0 = "IDN") →
        selectThreshold gid0 regionalized (pygeosArea (SGeom.multipolygon parts))
          = 0.01)
    ∧ ((gid0 = "RUS" ∨ gid0 = "GRL" ∨ gid0 = "CAN" ∨ gid0 = "USA") →
        selectThreshold gid0 true (pygeosArea (SGeom.multipolygon parts)) = 0.01
        ∧ selectThreshold gid0 false (pygeosArea (SGeom.multipolygon parts)) = 0.01)
    ∧ (¬(gid0 = "CHL" ∨ gid0 = "IDN") →
       ¬(gid0 = "RUS" ∨ gid0 = "GRL" ∨ gid0 = "CAN" ∨ gid0 = "USA") →
        pygeosArea (SGeom.multipolygon parts) > area2 regionalized →
        selectThreshold gid0 regionalized (pygeosArea (SGeom.multipolygon parts))
          = 0.1)
    ∧ (¬(gid0 = "CHL" ∨ gid0 = "IDN") →
       ¬(gid0 = "RUS" ∨ gid0 = "GRL" ∨ gid0 = "CAN" ∨ gid0 = "USA") →
        ¬(pygeosArea (SGeom.multipolygon parts) > area2 regionalized) →
        selectThreshold gid0 regionalized (pygeosArea (SGeom.multipolygon parts))
          = 0.001) := by
  refine ⟨remove_tiny_shapes_filter gid0 regionalized parts htot, ?_, ?_, ?_, ?_⟩
  · exact fun h => selectThreshold_chl_idn gid0 regionalized _ h
  · exact fun h => ⟨selectThreshold_big_four gid0 true _ h,
      selectThreshold_big_four gid0 false _ h⟩
  · intro h1 h2 h3
    rw [selectThreshold_generic gid0 regionalized _ h1 h2, if_pos h3]
  · intro h1 h2 h3
    rw [selectThreshold_generic gid0 regionalized _ h1 h2, if_neg h3]

/-- Witness for C1 at a concrete input. -/
theorem threshold_decision_table_witness :
    area1 false ≤ pygeosArea (SGeom.multipolygon [300]) ∧
    (remove_tiny_shapes ⟨"FRA", SGeom.multipolygon [300]⟩ false =
      some (SGeom.multipolygon (([300] : List ℚ).filter (fun a =>
        decide (selectThreshold "FRA" false
          (pygeosArea (SGeom.multipolygon [300])) < a))))) :=
  ⟨by norm_num [area1, pygeosArea],
   (threshold_decision_table "FRA" false [300]
      (by norm_num [area1, pygeosArea])).1⟩

/-- Helper: total planar area of the spec's concrete scenario multipolygon. -/
theorem scenario_total :
    pygeosArea (SGeom.multipolygon [0.05, 0.2, 50]) = 50.25 := by
  norm_num [pygeosArea]

/-- Helper: the threshold selected in the spec's concrete scenario. -/
theorem scenario_threshold :
    selectThreshold "FRA" false
      (pygeosArea (SGeom.multipolygon [0.05, 0.2, 50])) = 0.001 := by
  rw [selectThreshold_generic "FRA" false _ (by decide) (by decide), scenario_total]
  norm_num [area2]

/-- Helper: what `remove_tiny_shapes` actually returns in the spec's concrete
scenario — all three parts survive the 0.001 threshold. -/
theorem scenario_result :
    remove_tiny_shapes ⟨"FRA", SGeom.multipolygon [0.05, 0.2, 50]⟩ false =
      some (SGeom.multipolygon [0.05, 0.2, 50]) := by
  rw [remove_tiny_shapes_filter "FRA" false _
    (by rw [scenario_total]; norm_num [area1]), scenario_threshold]
  norm_num [List.filter_cons, List.filter_nil, decide_eq_true_eq]

/-- Claim C2 counterexample: the spec's concrete scenario is impossible on the
code.  A multipolygon with part areas 0.05, 0.2 and 50 has total planar area
50.25 (not 300, since `pygeos.area` of a multipolygon sums its parts); for a
generic country under `regionalized = false` that total is at or above the
floor 0.1 but not above `area2 = 250`, so the selected threshold is 0.001 and
all three parts survive — not just the parts of areas 0.2 and 50. -/
theorem concrete_scenario_counterexample :
    pygeosArea (SGeom.multipolygon [0.05, 0.2, 50]) = 50.25 ∧
    selectThreshold "FRA" false
      (pygeosArea (SGeom.multipolygon [0.05, 0.2, 50])) = 0.001 ∧
    remove_tiny_shapes ⟨"FRA", SGeom.multipolygon [0.05, 0.2, 50]⟩ false =
      some (SGeom.multipolygon [0.05, 0.2, 50]) ∧
    SGeom.multipolygon ([0.05, 0.2, 50] : List ℚ) ≠
      SGeom.multipolygon ([0.2, 50] : List ℚ) := by
  refine ⟨scenario_total, scenario_threshold, scenario_result, ?_⟩
  intro h
  injection h with h3
  exact absurd (congrArg List.length h3) (by norm_num)

/-- Claim C2 (amended): on a multipolygon whose total area is at or above the
mode-dependent floor `area1`, `remove_tiny_shapes` keeps exactly the parts
whose individual area strictly exceeds the selected threshold, drops every
part whose area is at most the threshold, and re-packs the survivors as a
multipolygon (an empty survivor list is still a multipolygon result, not an
error).  The spec's concrete scenario, corrected: parts of areas
0.05, 0.2, 50 for a non-overridden country under `regionalized = false` have
total area 50.25, get threshold 0.001, and all three parts survive. -/
theorem ring_filter_law (gid0 : String) (regionalized : Bool) (parts : List ℚ)
    (htot : area1 regionalized ≤ pygeosArea (SGeom.multipolygon parts)) :
    (remove_tiny_shapes ⟨gid0, SGeom.multipolygon parts⟩ regionalized =
      some (SGeom.multipolygon (parts.filter (fun a =>
        decide (selectThreshold gid0 regionalized
          (pygeosArea (SGeom.multipolygon parts)) < a)))))
    ∧ (∀ a : ℚ,
        a ∈ parts.filter (fun a =>
          decide (selectThreshold gid0 regionalized
            (pygeosArea (SGeom.multipolygon parts)) < a))
        ↔ a ∈ parts ∧
          selectThreshold gid0 regionalized
            (pygeosArea (SGeom.multipolygon parts)) < a)
    ∧ remove_tiny_shapes ⟨"FRA", SGeom.multipolygon [0.05, 0.2, 50]⟩ false =
        some (SGeom.multipolygon [0.05, 0.2, 50]) := by
  refine ⟨remove_tiny_shapes_filter gid0 regionalized parts htot, ?_, scenario_result⟩
  intro a
  simp [List.mem_filter]

/-- Witness for the amended C2 at a concrete input. -/
theorem ring_filter_law_witness :
    area1 false ≤ pygeosArea (SGeom.multipolygon [0.05, 300]) ∧
    (remove_tiny_shapes ⟨"DEU", SGeom.multipolygon [0.05, 300]⟩ false =
      some (SGeom.multipolygon (([0.05, 300] : List ℚ).filter (fun a =>
        decide (selectThreshold "DEU" false
          (pygeosArea (SGeom.multipolygon [0.05, 300])) < a))))) :=
  ⟨by norm_num [area1, pygeosArea],
   (ring_filter_law "DEU" false [0.05, 300]
      (by norm_num [area1, pygeosArea])).1⟩

/-- Claim C3: `remove_tiny_shapes` is the identity on the geometry when the
geometry is a single polygon, and when it is a multipolygon whose total area
is strictly below the mode-dependent floor `area1`. -/
theorem simplify_identity_cases (gid0 : String) (regionalized : Bool) :
    (∀ a : ℚ, remove_tiny_shapes ⟨gid0, SGeom.polygon a⟩ regionalized =
      some (SGeom.polygon a)) ∧
    (∀ parts : List ℚ,
      pygeosArea (SGeom.multipolygon parts) < area1 regionalized →
      remove_tiny_shapes ⟨gid0, SGeom.multipolygon parts⟩ regionalized =
        some (SGeom.multipolygon parts)) := by
  constructor
  · intro a
    rfl
  · intro parts h
    unfold remove_tiny_shapes
    simp only
    rw [if_pos h]

/-- Witness for C3 at concrete inputs. -/
theorem simplify_identity_cases_witness :
    remove_tiny_shapes ⟨"NLD", SGeom.polygon 5⟩ false = some (SGeom.polygon 5) ∧
    (pygeosArea (SGeom.multipolygon [0.01, 0.02]) < area1 false ∧
     remove_tiny_shapes ⟨"NLD", SGeom.multipolygon [0.01, 0.02]⟩ false =
       some (SGeom.multipolygon [0.01, 0.02])) :=
  ⟨(simplify_identity_cases "NLD" false).1 5,
   by norm_num [pygeosArea, area1],
   (simplify_identity_cases "NLD" false).2 [0.01, 0.02]
     (by norm_num [pygeosArea, area1])⟩

/-! ### BoundaryWriter: `poly_files` -/

/-- A constituent polygon as the writer sees it: its exterior vertex
coordinates (`numpy.array(polygon.exterior)`, ordered (lon, lat) pairs) and
its centroid (`polygon.centroid.coords[0]`, a (lon, lat) pair computed by the
shapely library and carried here as data). -/
structure Ring where
  vertices : List (ℚ × ℚ)
  centroid : ℚ × ℚ
  deriving DecidableEq, Repr

/-- A geometry as dispatched by `poly_files` on `geom.geom_type`: for any
other type the local variable `polygons` is never bound and the subsequent
loop raises an unhandled name error. -/
inductive WGeom where
  | polygon (r : Ring)
  | multipolygon (rs : List Ring)
  | other
  deriving DecidableEq, Repr

/-- A row of the shape table as consumed by `poly_files`: it reads the
columns `GID_0`, `GID_1` (the region code, used when regionalized) and
`TYPE_1` (used by the regionalized pre-filter). -/
structure WArea where
  GID_0 : String
  GID_1 : String
  TYPE_1 : String
  geometry : WGeom
  deriving DecidableEq, Repr

/-- The geodesic WGS-84 distance in kilometres between two (lat, lon) points,
`geopy.distance.geodesic(..., ellipsoid='WGS-84').kilometers`.  It is an
external library computation, so the writer is parameterised over it. -/
abbrev GeodesicKm : Type := (ℚ × ℚ) → (ℚ × ℚ) → ℚ

/-- `reversed(...)` applied to a coordinate pair: (lon, lat) becomes
(lat, lon). -/
def revCoord (p : ℚ × ℚ) : ℚ × ℚ := (p.2, p.1)

/-- Reference point of the CAN ring exclusion, (83.24° N, 79.80° W) as a
(lat, lon) pair. -/
def refCAN : ℚ × ℚ := (83.24, -79.80)

/-- Reference point of the RUS ring exclusion, (58.89° N, 82.26° E) as a
(lat, lon) pair. -/
def refRUS : ℚ × ℚ := (58.89, 82.26)

/-- The two `continue` guards of the writer loop: a ring is skipped when the
country code is CAN and its centroid is under 2000 km from `refCAN`, or when
the country code is RUS and its centroid is under 500 km from `refRUS`. -/
def skipRing (geo : GeodesicKm) (ctry : String) (r : Ring) : Bool :=
  (ctry == "CAN" && decide (geo (revCoord r.centroid) refCAN < 2000)) ||
  (ctry == "RUS" && decide (geo (revCoord r.centroid) refRUS < 500))

/-- One line of a boundary artifact.  The decimal rendering of coordinates is
abstracted; `renderLine` below recovers the exact text given a numeral
formatter. -/
inductive Line where
  | label (s : String)
  | index (n : ℕ)
  | vertex (x y : ℚ)
  | END
  deriving DecidableEq, Repr

/-- The text of one artifact line, given a formatter for coordinates
(Python's `str` on floats): the label line, the ring-index line, the
whitespace-padded two-column vertex line, and the terminator line. -/
def renderLine (fmt : ℚ → String) : Line → String
  | Line.label s => s
  | Line.index n => toString n
  | Line.vertex x y => "    " ++ fmt x ++ "     " ++ fmt y
  | Line.END => "END"

/-- The lines written for one surviving ring: its index on its own line, one
line per vertex, then `END`. -/
def ringLines (i : ℕ) (r : Ring) : List Line :=
  Line.index i :: (r.vertices.map (fun p => Line.vertex p.1 p.2) ++ [Line.END])

/-- The writer loop over the constituent polygons: the counter `i` is
incremented only when a ring is actually written, and a skipped ring emits
nothing. -/
def writeLoop (geo : GeodesicKm) (ctry : String) : List Ring → ℕ → List Line
  | [], _ => []
  | r :: rs, i =>
      if skipRing geo ctry r then writeLoop geo ctry rs i
      else ringLines i r ++ writeLoop geo ctry rs (i + 1)

/-- The only error the writer can raise: reading `polygons` before any row of
the call has bound it (an unbound-local error at the loop header `for polygon
in polygons`).  It is possible only while every row seen so far had a
malformed geometry, because a well-formed row leaves `polygons` bound for all
later iterations. -/
inductive WError where
  | unboundPolygons
  deriving DecidableEq, Repr

/-- What the geometry dispatch of `poly_files` binds `polygons` to for one
row taken in isolation: the parts of a multipolygon, the one-element list for
a single polygon, and nothing for any other geometry (the branch chain has no
else, so such a row binds nothing itself — see `dispatchGeom`). -/
def ringsOf : WGeom → Option (List Ring)
  | WGeom.multipolygon rs => some rs
  | WGeom.polygon r => some [r]
  | WGeom.other => none

/-- The geometry dispatch as it actually executes inside the row loop:
`polygons` is a function-local variable, so a row whose geometry is neither a
multipolygon nor a polygon leaves `polygons` at whatever value it had from
earlier iterations (unbound at the start of the call). -/
def dispatchGeom (prev : Option (List Ring)) : WGeom → Option (List Ring)
  | WGeom.multipolygon rs => some rs
  | WGeom.polygon r => some [r]
  | WGeom.other => prev

/-- The identifying code of the artifact: `GID_1` when regionalized, else
`GID_0`. -/
def attrOf (regionalized : Bool) (a : WArea) : String :=
  if regionalized then a.GID_1 else a.GID_0

/-- One written boundary artifact: its file name (`attr + ".poly"`) and its
lines. -/
structure Artifact where
  filename : String
  lines : List Line
  deriving DecidableEq, Repr

/-- One iteration of the writer's row loop, threading the current binding of
`polygons`: dispatch the geometry (a malformed row keeps the stale binding),
then write the label line, the surviving rings and the final terminator, and
hand the binding on to the next iteration.  The error arises exactly when the
loop header reads `polygons` while it is still unbound. -/
def processRow (geo : GeodesicKm) (regionalized : Bool)
    (prev : Option (List Ring)) (a : WArea) :
    Except WError (Artifact × List Ring) :=
  match dispatchGeom prev a.geometry with
  | none => Except.error WError.unboundPolygons
  | some polygons =>
      let attr := attrOf regionalized a
      Except.ok
        (⟨attr ++ ".poly",
          Line.label attr :: (writeLoop geo a.GID_0 polygons 0 ++ [Line.END])⟩,
         polygons)

/-- Processing of one Area with no binding carried in from earlier rows (in
particular, the behaviour of any Area whose own geometry is well formed,
whatever precedes it): the artifact component of `processRow` started
unbound. -/
def processArea (geo : GeodesicKm) (regionalized : Bool) (a : WArea) :
    Except WError Artifact :=
  Except.map Prod.fst (processRow geo regionalized none a)

/-- The pre-filter of `poly_files`: drop rows whose `GID_0` is the sentinel
`-`, and additionally drop `Water body` rows when regionalized. -/
def filterAreas (regionalized : Bool) (rows : List WArea) : List WArea :=
  if regionalized then
    (rows.filter (fun a => a.GID_0 != "-")).filter
      (fun a => a.TYPE_1 != "Water body")
  else rows.filter (fun a => a.GID_0 != "-")

/-- The writer's iteration over the (already filtered) rows, threading the
binding of `polygons` from row to row exactly as the source's loop does.  The
per-row try/except is commented out in the source, so the unbound-variable
error — possible only while no row has yet bound `polygons` — aborts the
iteration: the result is the artifacts written before the failure, and the
error if one occurred. -/
def polyFilesRun (geo : GeodesicKm) (regionalized : Bool) :
    Option (List Ring) → List WArea → List Artifact × Option WError
  | _, [] => ([], none)
  | prev, a :: rest =>
      match processRow geo regionalized prev a with
      | Except.error e => ([], some e)
      | Except.ok (art, polygons) =>
          let res := polyFilesRun geo regionalized (some polygons) rest
          (art :: res.1, res.2)

/-- The writer's iteration specialised to batches whose rows all bind
`polygons` themselves: each row is processed in isolation.  On such batches it
agrees with `polyFilesRun` (see `polyFilesRun_eq_polyFilesGo`); it is the
convenient form for stating per-row properties of well-formed rows. -/
def polyFilesGo (geo : GeodesicKm) (regionalized : Bool) :
    List WArea → List Artifact × Option WError
  | [] => ([], none)
  | a :: rest =>
      match processArea geo regionalized a with
      | Except.error e => ([], some e)
      | Except.ok art =>
          let res := polyFilesGo geo regionalized rest
          (art :: res.1, res.2)

/-- `poly_files` over a shape table: pre-filter, then iterate with `polygons`
initially unbound. -/
def poly_files (geo : GeodesicKm) (regionalized : Bool) (rows : List WArea) :
    List Artifact × Option WError :=
  polyFilesRun geo regionalized none (filterAreas regionalized rows)

/-- The rings that survive the skip guards, in order. -/
def writtenRings (geo : GeodesicKm) (ctry : String) (rs : List Ring) :
    List Ring :=
  rs.filter (fun r => !skipRing geo ctry r)

/-- The lines of a run of surviving rings starting at index `i`. -/
def renderRings : ℕ → List Ring → List Line
  | _, [] => []
  | i, r :: rs => ringLines i r ++ renderRings (i + 1) rs

/-- Helper: the writer loop writes exactly the surviving rings, consecutively
indexed from its starting counter. -/
theorem writeLoop_eq_renderRings (geo : GeodesicKm) (ctry : String)
    (rs : List Ring) : ∀ i : ℕ,
    writeLoop geo ctry rs i = renderRings i (writtenRings geo ctry rs) := by
  induction rs with
  | nil => intro i; rfl
  | cons r rest ih =>
      intro i
      by_cases h : skipRing geo ctry r = true
      · rw [writeLoop, if_pos h, writtenRings, List.filter_cons,
          if_neg (by simp [h]), ih i]
        rfl
      · rw [writeLoop, if_neg h, writtenRings, List.filter_cons,
          if_pos (by simp [h]), ih (i + 1)]
        rfl

/-- Helper: a row whose own geometry is well formed binds `polygons` to its
own rings, whatever binding was carried in. -/
theorem dispatchGeom_of_ringsOf (g : WGeom) (rs : List Ring)
    (h : ringsOf g = some rs) :
    ∀ prev : Option (List Ring), dispatchGeom prev g = some rs := by
  intro prev
  cases g with
  | polygon r =>
      simp only [ringsOf, Option.some.injEq] at h
      simp [dispatchGeom, h]
  | multipolygon rss =>
      simp only [ringsOf, Option.some.injEq] at h
      simp [dispatchGeom, h]
  | other => simp [ringsOf] at h

/-- Helper: a successfully processed Area's artifact is named by its
identifying code and consists of the label line, the surviving rings
consecutively indexed from 0, and the final terminator. -/
theorem processArea_lines (geo : GeodesicKm) (regionalized : Bool) (a : WArea)
    (rs : List Ring) (art : Artifact) (h : ringsOf a.geometry = some rs)
    (ha : processArea geo regionalized a = Except.ok art) :
    art.filename = attrOf regionalized a ++ ".poly" ∧
    art.lines = Line.label (attrOf regionalized a) ::
      (renderRings 0 (writtenRings geo a.GID_0 rs) ++ [Line.END]) := by
  simp only [processArea, processRow, dispatchGeom_of_ringsOf a.geometry rs h,
    Except.map] at ha
  rw [Except.ok.injEq] at ha
  rw [← ha]
  simp [writeLoop_eq_renderRings]

/-- A distance oracle under which every centroid is at distance 0 km. -/
def geoZero : GeodesicKm := fun _ _ => 0

/-- A distance oracle under which every centroid is at distance 100000 km. -/
def geoFar : GeodesicKm := fun _ _ => 100000

/-- A region row of Canada with a single triangular ring. -/
def canRegionRow : WArea :=
  ⟨"CAN", "CAN.1_1", "",
   WGeom.polygon ⟨[(0, 0), (1, 0), (0, 1), (0, 0)], (0, 0)⟩⟩

/-- Claim C4 counterexample: the centroid-distance exclusion also applies to
region-level artifacts, not only country-level ones — `poly_files` keys the
rule on the row's `GID_0`, which for a region of Canada is `CAN` even when
`regionalized = true`.  Under a distance oracle placing the ring's centroid at
0 km the regional artifact for `CAN.1_1` contains no ring at all, while under
an oracle placing it at 100000 km the same ring is written. -/
theorem region_level_exclusion_counterexample :
    processArea geoZero true canRegionRow =
      Except.ok ⟨"CAN.1_1.poly", [Line.label "CAN.1_1", Line.END]⟩ ∧
    processArea geoFar true canRegionRow =
      Except.ok ⟨"CAN.1_1.poly",
        [Line.label "CAN.1_1", Line.index 0, Line.vertex 0 0, Line.vertex 1 0,
         Line.vertex 0 1, Line.vertex 0 0, Line.END, Line.END]⟩ := by
  constructor <;> rfl

/-- Claim C4 (amended): the centroid-distance ring-exclusion rule is keyed on
the Area's country code `GID_0` and applies to both country-level and
region-level artifacts.  For `GID_0 = CAN` a ring survives iff its centroid is
not under 2000 km (geodesic, per the supplied WGS-84 oracle) from
(83.24° N, 79.80° W); for `GID_0 = RUS` the same with (58.89° N, 82.26° E) and
500 km; no other country excludes any ring.  The artifact body is the
surviving rings in order, identically under both regionalization modes. -/
theorem ring_exclusion_rule (geo : GeodesicKm) (a : WArea) (rs : List Ring)
    (h : ringsOf a.geometry = some rs) (r : Ring) (hr : r ∈ rs) :
    (a.GID_0 = "CAN" →
      (r ∈ writtenRings geo a.GID_0 rs ↔
        ¬ geo (revCoord r.centroid) refCAN < 2000)) ∧
    (a.GID_0 = "RUS" →
      (r ∈ writtenRings geo a.GID_0 rs ↔
        ¬ geo (revCoord r.centroid) refRUS < 500)) ∧
    (a.GID_0 ≠ "CAN" → a.GID_0 ≠ "RUS" →
      r ∈ writtenRings geo a.GID_0 rs) ∧
    (∀ (regionalized : Bool) (art : Artifact),
      processArea geo regionalized a = Except.ok art →
      art.lines = Line.label (attrOf regionalized a) ::
        (renderRings 0 (writtenRings geo a.GID_0 rs) ++ [Line.END])) := by
  refine ⟨?_, ?_, ?_, ?_⟩
  · intro hg
    rw [hg]
    simp [writtenRings, List.mem_filter, skipRing, hr]
  · intro hg
    rw [hg]
    simp [writtenRings, List.mem_filter, skipRing, hr]
  · intro hg1 hg2
    simp [writtenRings, List.mem_filter, skipRing, hr, hg1, hg2]
  · intro regionalized art hart
    exact (processArea_lines geo regionalized a rs art h hart).2

/-- Witness for the amended C4 at a concrete input. -/
theorem ring_exclusion_rule_witness :
    ringsOf canRegionRow.geometry =
      some [⟨[(0, 0), (1, 0), (0, 1), (0, 0)], (0, 0)⟩] ∧
    (canRegionRow.GID_0 = "CAN" →
      ((⟨[(0, 0), (1, 0), (0, 1), (0, 0)], (0, 0)⟩ : Ring) ∈
          writtenRings geoZero canRegionRow.GID_0
            [⟨[(0, 0), (1, 0), (0, 1), (0, 0)], (0, 0)⟩] ↔
        ¬ geoZero (revCoord ((0 : ℚ), (0 : ℚ))) refCAN < 2000)) := by
  refine ⟨rfl, ?_⟩
  exact (ring_exclusion_rule geoZero canRegionRow
    [⟨[(0, 0), (1, 0), (0, 1), (0, 0)], (0, 0)⟩] rfl
    ⟨[(0, 0), (1, 0), (0, 1), (0, 0)], (0, 0)⟩ (by simp)).1

/-- The ring-index lines occurring in a list of artifact lines, in order. -/
def lineIndices (ls : List Line) : List ℕ :=
  ls.filterMap (fun l =>
    match l with
    | Line.index n => some n
    | _ => none)

/-- Helper: vertex lines carry no ring index. -/
theorem lineIndices_vertexMap (vs : List (ℚ × ℚ)) :
    lineIndices (vs.map (fun p => Line.vertex p.1 p.2)) = [] := by
  induction vs with
  | nil => rfl
  | cons v rest ih =>
      simp only [lineIndices] at ih ⊢
      simp [ih]

/-- Helper: a run of rings written from index `i` carries exactly the
consecutive indices `i, i+1, ...`. -/
theorem lineIndices_renderRings (kept : List Ring) : ∀ i : ℕ,
    lineIndices (renderRings i kept) = List.range' i kept.length := by
  induction kept with
  | nil => intro i; rfl
  | cons r rest ih =>
      intro i
      have hv := lineIndices_vertexMap r.vertices
      simp only [lineIndices] at hv ⊢
      simp [renderRings, ringLines, List.filterMap_append, hv,
        List.range'_succ, List.length_cons]
      exact ih (i + 1)

/-- Claim C10: in every artifact written by `poly_files`, the ring-index lines
are exactly the consecutive sequence `0, 1, ..., n-1` where `n` is the number
of rings actually emitted — a skipped ring consumes no index, so the indices
have no gaps — and when every ring of the Area is skipped the artifact still
exists, consisting of the identifying-code line followed by the single final
`END` line. -/
theorem ring_indices_consecutive (geo : GeodesicKm) (regionalized : Bool)
    (a : WArea) (rs : List Ring) (art : Artifact)
    (h : ringsOf a.geometry = some rs)
    (ha : processArea geo regionalized a = Except.ok art) :
    lineIndices art.lines = List.range (writtenRings geo a.GID_0 rs).length ∧
    (writtenRings geo a.GID_0 rs = [] →
      art.lines = [Line.label (attrOf regionalized a), Line.END]) := by
  obtain ⟨-, hl⟩ := processArea_lines geo regionalized a rs art h ha
  constructor
  · rw [hl, List.range_eq_range', ← lineIndices_renderRings]
    simp [lineIndices, List.filterMap_append]
  · intro hk
    rw [hl, hk]
    rfl

/-- Witness for C10 at a concrete input: a Canadian row whose only ring is
skipped, so the artifact is just the label line and the final terminator. -/
theorem ring_indices_consecutive_witness :
    ringsOf canRegionRow.geometry =
      some [⟨[(0, 0), (1, 0), (0, 1), (0, 0)], (0, 0)⟩] ∧
    processArea geoZero true canRegionRow =
      Except.ok ⟨"CAN.1_1.poly", [Line.label "CAN.1_1", Line.END]⟩ ∧
    (writtenRings geoZero canRegionRow.GID_0
        [⟨[(0, 0), (1, 0), (0, 1), (0, 0)], (0, 0)⟩] = [] →
      (⟨"CAN.1_1.poly", [Line.label "CAN.1_1", Line.END]⟩ : Artifact).lines =
        [Line.label (attrOf true canRegionRow), Line.END]) :=
  ⟨rfl, rfl,
   (ring_indices_consecutive geoZero true canRegionRow
      [⟨[(0, 0), (1, 0), (0, 1), (0, 0)], (0, 0)⟩]
      ⟨"CAN.1_1.poly", [Line.label "CAN.1_1", Line.END]⟩ rfl rfl).2⟩

/-- Claim C6: a surviving Area's artifact is identified by `GID_0` when not
regionalized and by `GID_1` (the region code the writer reads) when
regionalized; the output file is named solely by that code (`code + ".poly"`),
independent of the Area's position in iteration order: whatever rows precede
or follow it, the artifact emitted for the Area is the same. -/
theorem artifact_naming (geo : GeodesicKm) (regionalized : Bool) (a : WArea)
    (rs : List Ring) (art : Artifact) (h : ringsOf a.geometry = some rs)
    (ha : processArea geo regionalized a = Except.ok art) :
    art.filename = (if regionalized then a.GID_1 else a.GID_0) ++ ".poly" ∧
    (∀ pre post : List WArea,
      (∀ b ∈ pre, ∃ artb, processArea geo regionalized b = Except.ok artb) →
      (polyFilesGo geo regionalized (pre ++ a :: post)).1.get? pre.length =
        some art) := by
  constructor
  · rw [(processArea_lines geo regionalized a rs art h ha).1]
    rfl
  · intro pre post hpre
    induction pre with
    | nil => simp [polyFilesGo, ha]
    | cons b rest ih =>
        obtain ⟨artb, hb⟩ := hpre b (by simp)
        have := ih (fun c hc => hpre c (by simp [hc]))
        simp only [List.cons_append, polyFilesGo, hb]
        simpa [List.length_cons] using this

/-- Witness for C6 at a concrete input. -/
theorem artifact_naming_witness :
    ringsOf canRegionRow.geometry =
      some [⟨[(0, 0), (1, 0), (0, 1), (0, 0)], (0, 0)⟩] ∧
    (⟨"CAN.1_1.poly", [Line.label "CAN.1_1", Line.END]⟩ : Artifact).filename =
      (if true then canRegionRow.GID_1 else canRegionRow.GID_0) ++ ".poly" :=
  ⟨rfl,
   (artifact_naming geoZero true canRegionRow
      [⟨[(0, 0), (1, 0), (0, 1), (0, 0)], (0, 0)⟩]
      ⟨"CAN.1_1.poly", [Line.label "CAN.1_1", Line.END]⟩ rfl rfl).1⟩

/-- Parse vertex lines up to and including the terminating `END` line,
returning the vertices and the remaining lines. -/
def parseVerts : List Line → Option (List (ℚ × ℚ) × List Line)
  | Line.vertex x y :: rest =>
      match parseVerts rest with
      | some (vs, rem) => some ((x, y) :: vs, rem)
      | none => none
  | Line.END :: rest => some ([], rest)
  | _ => none

/-- Parse a sequence of rings (each introduced by its index line and closed by
`END`) followed by the final `END` terminator.  The first argument is fuel
bounding the number of rings. -/
def parseRingsAux : ℕ → List Line → Option (List (List (ℚ × ℚ)))
  | _, [Line.END] => some []
  | fuel + 1, Line.index _ :: rest =>
      match parseVerts rest with
      | some (vs, rem) =>
          match parseRingsAux fuel rem with
          | some rss => some (vs :: rss)
          | none => none
      | none => none
  | _, _ => none

/-- Parse a sequence of rings, with fuel bounded by the number of lines. -/
def parseRings (ls : List Line) : Option (List (List (ℚ × ℚ))) :=
  parseRingsAux ls.length ls

/-- Parse a whole boundary artifact: the area label on the first line, then
the rings. -/
def parseArtifact : List Line → Option (String × List (List (ℚ × ℚ)))
  | Line.label s :: rest =>
      match parseRings rest with
      | some rss => some (s, rss)
      | none => none
  | _ => none

/-- Helper: parsing the rendered vertex block of a ring recovers its
vertices and leaves the rest untouched. -/
theorem parseVerts_render (vs : List (ℚ × ℚ)) (rest : List Line) :
    parseVerts (vs.map (fun p => Line.vertex p.1 p.2) ++ Line.END :: rest) =
      some (vs, rest) := by
  induction vs with
  | nil => rfl
  | cons v tail ih => simp [parseVerts, ih]

/-- Helper: each written ring occupies at least its index line, so the ring
count is bounded by the line count. -/
theorem length_renderRings (kept : List Ring) : ∀ i : ℕ,
    kept.length ≤ (renderRings i kept).length := by
  induction kept with
  | nil => intro i; simp
  | cons r rest ih =>
      intro i
      calc (r :: rest).length = rest.length + 1 := by simp
      _ ≤ (renderRings (i + 1) rest).length + 1 := by
            have := ih (i + 1); omega
      _ ≤ (renderRings i (r :: rest)).length := by
            simp [renderRings, ringLines]
            omega

/-- Helper: with enough fuel, parsing the rendered rings followed by the final
terminator recovers exactly the vertex sequences, whatever the ring indices
were. -/
theorem parseRingsAux_render (kept : List Ring) : ∀ (i fuel : ℕ),
    kept.length ≤ fuel →
    parseRingsAux fuel (renderRings i kept ++ [Line.END]) =
      some (kept.map Ring.vertices) := by
  induction kept with
  | nil => intro i fuel _; cases fuel <;> rfl
  | cons r rest ih =>
      intro i fuel hfuel
      match fuel with
      | f + 1 =>
          have h1 : renderRings i (r :: rest) ++ [Line.END] =
              Line.index i :: (r.vertices.map (fun p => Line.vertex p.1 p.2) ++
                Line.END :: (renderRings (i + 1) rest ++ [Line.END])) := by
            simp [renderRings, ringLines]
          rw [h1]
          simp only [parseRingsAux, parseVerts_render]
          rw [ih (i + 1) f (by simpa using hfuel)]
          rfl

/-- Claim C7: parsing a written boundary artifact (first line the area label;
each emitted ring introduced by its index line, followed by its vertex lines
and an `END` line; the whole file closed by a final `END` line) reproduces
exactly the area label and the ordered vertex sequences of the rings that were
written, modulo the decimal rendering of coordinates. -/
theorem artifact_round_trip (geo : GeodesicKm) (regionalized : Bool)
    (a : WArea) (rs : List Ring) (art : Artifact)
    (h : ringsOf a.geometry = some rs)
    (ha : processArea geo regionalized a = Except.ok art) :
    parseArtifact art.lines =
      some (attrOf regionalized a,
        (writtenRings geo a.GID_0 rs).map Ring.vertices) := by
  obtain ⟨-, hl⟩ := processArea_lines geo regionalized a rs art h ha
  rw [hl]
  have hfuel : (writtenRings geo a.GID_0 rs).length ≤
      (renderRings 0 (writtenRings geo a.GID_0 rs) ++ [Line.END]).length := by
    have := length_renderRings (writtenRings geo a.GID_0 rs) 0
    simp only [List.length_append]
    omega
  simp only [parseArtifact, parseRings,
    parseRingsAux_render (writtenRings geo a.GID_0 rs) 0 _ hfuel]

/-- Witness for C7 at a concrete input: the regional artifact of the Canadian
row written with the far distance oracle parses back to its label and its one
ring's vertex sequence. -/
theorem artifact_round_trip_witness :
    ringsOf canRegionRow.geometry =
      some [⟨[(0, 0), (1, 0), (0, 1), (0, 0)], (0, 0)⟩] ∧
    parseArtifact
        [Line.label "CAN.1_1", Line.index 0, Line.vertex 0 0, Line.vertex 1 0,
         Line.vertex 0 1, Line.vertex 0 0, Line.END, Line.END] =
      some (attrOf true canRegionRow,
        (writtenRings geoFar canRegionRow.GID_0
          [⟨[(0, 0), (1, 0), (0, 1), (0, 0)], (0, 0)⟩]).map Ring.vertices) :=
  ⟨rfl,
   artifact_round_trip geoFar true canRegionRow
     [⟨[(0, 0), (1, 0), (0, 1), (0, 0)], (0, 0)⟩]
     ⟨"CAN.1_1.poly",
      [Line.label "CAN.1_1", Line.index 0, Line.vertex 0 0, Line.vertex 1 0,
       Line.vertex 0 1, Line.vertex 0 0, Line.END, Line.END]⟩ rfl rfl⟩

/-- Helper: the geometry dispatch succeeds exactly on polygons and
multipolygons. -/
theorem ringsOf_ne_other (g : WGeom) (h : g ≠ WGeom.other) :
    ∃ rs : List Ring, ringsOf g = some rs := by
  cases g with
  | polygon r => exact ⟨[r], rfl⟩
  | multipolygon rs => exact ⟨rs, rfl⟩
  | other => exact absurd rfl h

/-- Helper: on a batch whose rows all have well-formed geometry, the stateful
iteration never consults the carried binding, so it agrees with the
per-row-in-isolation form whatever binding it starts from. -/
theorem polyFilesRun_eq_polyFilesGo (geo : GeodesicKm) (regionalized : Bool)
    (rows : List WArea) (h : ∀ b ∈ rows, b.geometry ≠ WGeom.other) :
    ∀ prev : Option (List Ring),
      polyFilesRun geo regionalized prev rows =
        polyFilesGo geo regionalized rows := by
  induction rows with
  | nil => intro prev; rfl
  | cons b rest ih =>
      intro prev
      obtain ⟨rs, hrs⟩ := ringsOf_ne_other b.geometry (h b (by simp))
      have hd := dispatchGeom_of_ringsOf b.geometry rs hrs
      have hrest := ih (fun c hc => h c (by simp [hc]))
      simp only [polyFilesRun, polyFilesGo, processArea, processRow, hd,
        Except.map, hrest]

/-- A shape-table row whose geometry is neither a polygon nor a
multipolygon. -/
def badRow : WArea := ⟨"AAA", "AAA.1_1", "", WGeom.other⟩

/-- A well-formed shape-table row accompanying `badRow` in the batches
below. -/
def goodRow : WArea := ⟨"BBB", "BBB.1_1", "", WGeom.polygon ⟨[(0, 0)], (0, 0)⟩⟩

/-- Claim C8 counterexample: a malformed geometry neither raises an error
local to its own Area nor lets the other Areas always complete.  With the
malformed row first, reading the never-bound `polygons` raises and the batch
aborts — `goodRow` after it is never processed.  With the malformed row after
a well-formed one, no error is raised at all: the stale `polygons` binding
makes the writer silently emit the PREVIOUS row's ring under the malformed
Area's own code (`AAA.poly` receives `goodRow`'s vertex), and the batch
continues. -/
theorem stale_polygons_counterexample :
    polyFilesRun geoZero false none [badRow, goodRow] =
      ([], some WError.unboundPolygons) ∧
    polyFilesRun geoZero false none [goodRow, badRow, goodRow] =
      ([⟨"BBB.poly",
         [Line.label "BBB", Line.index 0, Line.vertex 0 0, Line.END,
          Line.END]⟩,
        ⟨"AAA.poly",
         [Line.label "AAA", Line.index 0, Line.vertex 0 0, Line.END,
          Line.END]⟩,
        ⟨"BBB.poly",
         [Line.label "BBB", Line.index 0, Line.vertex 0 0, Line.END,
          Line.END]⟩], none) := by
  constructor <;> rfl

/-- Claim C8 (amended): an Area whose geometry is neither a polygon nor a
multipolygon makes `remove_tiny_shapes` return `None` (no error).  In
`poly_files` the local `polygons` persists across iterations, so such an Area
raises only while no earlier Area has bound `polygons`: then the
unbound-variable error aborts the whole batch and the later Areas are never
processed.  Once some ring list is carried in (a well-formed Area leaves its
own rings bound, as the last conjunct states), a malformed Area raises
nothing — the writer silently emits the carried rings under the malformed
Area's code and the batch continues. -/
theorem malformed_geometry_behavior (geo : GeodesicKm)
    (regionalized sreg : Bool) (sx : SArea) (hs : sx.geometry = SGeom.other)
    (bad : WArea) (hbad : bad.geometry = WGeom.other) :
    remove_tiny_shapes sx sreg = none ∧
    (∀ post : List WArea,
      polyFilesRun geo regionalized none (bad :: post) =
        ([], some WError.unboundPolygons)) ∧
    (∀ (prevRings : List Ring) (rest : List WArea),
      processRow geo regionalized (some prevRings) bad =
        Except.ok
          (⟨attrOf regionalized bad ++ ".poly",
            Line.label (attrOf regionalized bad) ::
              (writeLoop geo bad.GID_0 prevRings 0 ++ [Line.END])⟩,
           prevRings) ∧
      polyFilesRun geo regionalized (some prevRings) (bad :: rest) =
        (⟨attrOf regionalized bad ++ ".poly",
          Line.label (attrOf regionalized bad) ::
            (writeLoop geo bad.GID_0 prevRings 0 ++ [Line.END])⟩ ::
           (polyFilesRun geo regionalized (some prevRings) rest).1,
         (polyFilesRun geo regionalized (some prevRings) rest).2)) ∧
    (∀ (good : WArea) (rs : List Ring) (prev : Option (List Ring)),
      ringsOf good.geometry = some rs →
      ∃ art : Artifact,
        processRow geo regionalized prev good = Except.ok (art, rs)) := by
  refine ⟨by simp [remove_tiny_shapes, hs], ?_, ?_, ?_⟩
  · intro post
    simp [polyFilesRun, processRow, dispatchGeom, hbad]
  · intro prevRings rest
    have hstep : processRow geo regionalized (some prevRings) bad =
        Except.ok
          (⟨attrOf regionalized bad ++ ".poly",
            Line.label (attrOf regionalized bad) ::
              (writeLoop geo bad.GID_0 prevRings 0 ++ [Line.END])⟩,
           prevRings) := by
      simp [processRow, dispatchGeom, hbad]
    exact ⟨hstep, by simp [polyFilesRun, hstep]⟩
  · intro good rs prev hgood
    refine ⟨⟨attrOf regionalized good ++ ".poly",
      Line.label (attrOf regionalized good) ::
        (writeLoop geo good.GID_0 rs 0 ++ [Line.END])⟩, ?_⟩
    simp [processRow, dispatchGeom_of_ringsOf good.geometry rs hgood prev]

/-- Witness for the amended C8 at a concrete input: batches of both shapes,
with the hypotheses discharged at explicit rows. -/
theorem malformed_geometry_behavior_witness :
    (⟨"AAA", SGeom.other⟩ : SArea).geometry = SGeom.other ∧
    badRow.geometry = WGeom.other ∧
    polyFilesRun geoZero false none (badRow :: [goodRow]) =
      ([], some WError.unboundPolygons) :=
  ⟨rfl, rfl,
   (malformed_geometry_behavior geoZero false false ⟨"AAA", SGeom.other⟩ rfl
      badRow rfl).2.1 [goodRow]⟩

/-! ### ClipOrchestrator: `clip_osm_osmconvert` and `clip_osm_osmosis` -/

/-- The observable system state of a clip invocation: the file system as an
association list from path to contents, and the log of shell commands issued
through `os.system`. -/
structure SysState where
  fs : List (String × String)
  log : List String
  deriving DecidableEq, Repr

/-- The osmconvert shell command built by `clip_osm_osmconvert`. -/
def osmconvertCmd (planet_path area_poly area_pbf : String) : String :=
  "osmconvert64-0.8.8p" ++ "  " ++ planet_path ++ " -B=" ++ area_poly ++
    " --complete-ways -o=" ++ area_pbf

/-- The osmosis shell command built by `clip_osm_osmosis`.  The source
interpolates the module-level function object `planet_osm` (not its
`planet_path` argument) into the command; its rendered representation is taken
here as the opaque string `planet_repr`. -/
def osmosisCmd (planet_repr area_poly area_pbf : String) : String :=
  "osmosis" ++ " --read-xml file=\"" ++ planet_repr ++
    "\" --bounding-polygon file=\"" ++ area_poly ++ "\" --write-xml file=\"" ++
    area_pbf ++ "\""

/-- `clip_osm_osmconvert`: if the destination `area_pbf` already exists the
body does nothing (and the function returns normally, printing `finished`);
otherwise the osmconvert command is issued, its effect on the file system
given by the external `backend`. -/
def clip_osm_osmconvert
    (backend : String → List (String × String) → List (String × String))
    (s : SysState) (planet_path area_poly area_pbf : String) : SysState :=
  if (s.fs.lookup area_pbf).isSome then s
  else
    ⟨backend (osmconvertCmd planet_path area_poly area_pbf) s.fs,
     s.log ++ [osmconvertCmd planet_path area_poly area_pbf]⟩

/-- `clip_osm_osmosis`: same guard, osmosis backend. -/
def clip_osm_osmosis
    (backend : String → List (String × String) → List (String × String))
    (s : SysState) (planet_repr area_poly area_pbf : String) : SysState :=
  if (s.fs.lookup area_pbf).isSome then s
  else
    ⟨backend (osmosisCmd planet_repr area_poly area_pbf) s.fs,
     s.log ++ [osmosisCmd planet_repr area_poly area_pbf]⟩

/-- Claim C9: when the destination path already exists, either clip backend is
a no-op treated as success — no command is issued, the file system (including
the existing destination) is unchanged, and running the clip a second time
against the same destination again issues no command. -/
theorem clip_noop_when_dest_exists
    (backend₁ backend₂ : String → List (String × String) → List (String × String))
    (s : SysState) (planet_path planet_repr area_poly area_pbf : String)
    (h : (s.fs.lookup area_pbf).isSome) :
    clip_osm_osmconvert backend₁ s planet_path area_poly area_pbf = s ∧
    clip_osm_osmosis backend₂ s planet_repr area_poly area_pbf = s ∧
    clip_osm_osmconvert backend₁
      (clip_osm_osmconvert backend₁ s planet_path area_poly area_pbf)
      planet_path area_poly area_pbf = s ∧
    clip_osm_osmosis backend₂
      (clip_osm_osmosis backend₂ s planet_repr area_poly area_pbf)
      planet_repr area_poly area_pbf = s := by
  have h1 : clip_osm_osmconvert backend₁ s planet_path area_poly area_pbf = s := by
    simp [clip_osm_osmconvert, h]
  have h2 : clip_osm_osmosis backend₂ s planet_repr area_poly area_pbf = s := by
    simp [clip_osm_osmosis, h]
  exact ⟨h1, h2, by rw [h1, h1], by rw [h2, h2]⟩

/-- Witness for C9 at a concrete input. -/
theorem clip_noop_when_dest_exists_witness :
    ((⟨[("NLD.osm.pbf", "pbf-bytes")], []⟩ : SysState).fs.lookup
      "NLD.osm.pbf").isSome ∧
    clip_osm_osmconvert (fun _ fs => fs) ⟨[("NLD.osm.pbf", "pbf-bytes")], []⟩
      "planet.osm.pbf" "NLD.poly" "NLD.osm.pbf" =
      ⟨[("NLD.osm.pbf", "pbf-bytes")], []⟩ :=
  ⟨by decide,
   (clip_noop_when_dest_exists (fun _ fs => fs) (fun _ fs => fs)
      ⟨[("NLD.osm.pbf", "pbf-bytes")], []⟩ "planet.osm.pbf" "planet_osm"
      "NLD.poly" "NLD.osm.pbf" (by decide)).1⟩

/-! ### Region synthesis in `global_shapefiles` -/

/-- A row of the level-0 (country) table as used by the region-synthesis step
of `global_shapefiles`. -/
structure L0Row where
  GID_0 : String
  geometry : WGeom
  deriving DecidableEq, Repr

/-- A substitute region row: the country code, the region code written into
the `GID_<assigned_level>` column (absent when no branch fires), and the
geometry. -/
structure LxRow where
  GID_0 : String
  regionCode : Option String
  geometry : WGeom
  deriving DecidableEq, Repr

/-- The region code synthesized for a country with no sub-regions, branch by
branch as in the source: at `assigned_level` `L` between 1 and 5 it is
`GID_0 + ('.' + str(0)) * L + '_' + str(1)`; no branch fires otherwise. -/
def mis_country_code (gid0 : String) : ℕ → Option String
  | 1 => some (gid0 ++ "." ++ "0" ++ "_" ++ "1")
  | 2 => some (gid0 ++ "." ++ "0" ++ "." ++ "0" ++ "_" ++ "1")
  | 3 => some (gid0 ++ "." ++ "0" ++ "." ++ "0" ++ "." ++ "0" ++ "_" ++ "1")
  | 4 => some (gid0 ++ "." ++ "0" ++ "." ++ "0" ++ "." ++ "0" ++ "." ++ "0" ++
      "_" ++ "1")
  | 5 => some (gid0 ++ "." ++ "0" ++ "." ++ "0" ++ "." ++ "0" ++ "." ++ "0" ++
      "." ++ "0" ++ "_" ++ "1")
  | _ => none

/-- The string `.0` repeated `n` times. -/
def dotZeroes : ℕ → String
  | 0 => ""
  | n + 1 => dotZeroes n ++ ".0"

/-- The substitute rows `mis_country` appended by `global_shapefiles`: the
level-0 rows of the countries absent from the level-x table, each reusing its
level-0 geometry and receiving the synthesized region code. -/
def synth_missing (assigned_level : ℕ) (gadm_level0 : List L0Row)
    (present : List String) : List LxRow :=
  (gadm_level0.filter (fun r => !present.contains r.GID_0)).map
    (fun r => ⟨r.GID_0, mis_country_code r.GID_0 assigned_level, r.geometry⟩)

/-- Claim C5 counterexample: the synthesized region code carries L occurrences
of `.0` at level L, not L-1 as the claim's formula says.  At level 2 the code
synthesized for USA is `USA.0.0_1`, while the claimed pattern
`<ISO3>` + (L-1) occurrences of `.0` + `_1` would give `USA.0_1`. -/
theorem region_code_counterexample :
    mis_country_code "USA" 2 = some "USA.0.0_1" ∧
    "USA" ++ dotZeroes (2 - 1) ++ "_1" = "USA.0_1" ∧
    mis_country_code "USA" 2 ≠ some ("USA" ++ dotZeroes (2 - 1) ++ "_1") := by
  refine ⟨rfl, rfl, ?_⟩
  intro hcontra
  have h' : ("USA.0.0_1" : String) = "USA" ++ dotZeroes (2 - 1) ++ "_1" :=
    Option.some.inj hcontra
  exact absurd (congrArg String.length h') (by decide)

/-- Helper: for levels 1 to 5 the synthesized region code is the country code
followed by L occurrences of `.0` and then `_1`. -/
theorem mis_country_code_eq (c : String) (L : ℕ) (h1 : 1 ≤ L) (h5 : L ≤ 5) :
    mis_country_code c L = some (c ++ dotZeroes L ++ "_1") := by
  interval_cases L <;>
    simp only [mis_country_code, dotZeroes, Option.some.injEq,
      String.append_assoc] <;> rfl

/-- Claim C5 (amended): for a country with exactly one level-0 row and no rows
at the requested level L (1 ≤ L ≤ 5), region synthesis creates exactly one
substitute row for it, reusing the country's level-0 geometry, whose region
code is the country code followed by L occurrences of `.0` and then `_1`
(e.g. level 1 yields `<ISO3>.0_1`, level 2 yields `<ISO3>.0.0_1`). -/
theorem region_synthesis (L : ℕ) (h1 : 1 ≤ L) (h5 : L ≤ 5)
    (gadm_level0 : List L0Row) (present : List String) (c : String) (g : WGeom)
    (hc : gadm_level0.filter (fun r => r.GID_0 == c) = [⟨c, g⟩])
    (hm : present.contains c = false) :
    mis_country_code c L = some (c ++ dotZeroes L ++ "_1") ∧
    (synth_missing L gadm_level0 present).filter (fun r => r.GID_0 == c) =
      [⟨c, some (c ++ dotZeroes L ++ "_1"), g⟩] := by
  refine ⟨mis_country_code_eq c L h1 h5, ?_⟩
  rw [synth_missing, List.filter_map]
  have hcomp : ((fun r : LxRow => r.GID_0 == c) ∘
      (fun r : L0Row => (⟨r.GID_0, mis_country_code r.GID_0 L, r.geometry⟩ : LxRow)))
      = fun r : L0Row => r.GID_0 == c := rfl
  rw [hcomp, List.filter_filter]
  have hswap : gadm_level0.filter
        (fun a => (a.GID_0 == c) && !present.contains a.GID_0) =
      (gadm_level0.filter (fun r => r.GID_0 == c)).filter
        (fun a => !present.contains a.GID_0) := by
    rw [List.filter_filter]
    exact List.filter_congr (fun x _ => by rw [Bool.and_comm])
  rw [hswap, hc]
  have hm' : c ∉ present := by simpa using hm
  simp [List.filter_cons, hm', mis_country_code_eq c L h1 h5]

/-- Witness for the amended C5 at a concrete input. -/
theorem region_synthesis_witness :
    ([⟨"USA", WGeom.polygon ⟨[(0, 0)], (0, 0)⟩⟩] :
        List L0Row).filter (fun r => r.GID_0 == "USA") =
      [⟨"USA", WGeom.polygon ⟨[(0, 0)], (0, 0)⟩⟩] ∧
    (synth_missing 1 [⟨"USA", WGeom.polygon ⟨[(0, 0)], (0, 0)⟩⟩]
        ["CAN"]).filter (fun r => r.GID_0 == "USA") =
      [⟨"USA", some ("USA" ++ dotZeroes 1 ++ "_1"),
        WGeom.polygon ⟨[(0, 0)], (0, 0)⟩⟩] :=
  ⟨rfl,
   (region_synthesis 1 (by decide) (by decide)
      [⟨"USA", WGeom.polygon ⟨[(0, 0)], (0, 0)⟩⟩] ["CAN"] "USA"
      (WGeom.polygon ⟨[(0, 0)], (0, 0)⟩) rfl rfl).2⟩

end OsmClipper
